import Mathlib

/-!
Verification of the octobus reliable-delivery core: the bounded-retry runner,
the Redis-backed work queue (`RedisQueue` in src/src/http/provider.ts), and the
NATS stream consumer runner (`Consumers`, `runSub`, `pullSmart`, `durableName`
in the stream module). Effectful TypeScript is embedded as explicit
state-passing functions producing event traces; payload serialization is
treated as the identity on an abstract payload type.
-/

variable {T M : Type} {σ ε α : Type}

/-- Outcome of one invocation of an attempt function: normal return, a thrown
`RetryError` (the Retry Signal), or any other thrown error. -/
inductive Outcome (ε α : Type) where
  | ok (a : α)
  | retrySignal
  | err (e : ε)
deriving DecidableEq

/-- Result of a full run of the retry runner: normal return with a value,
graceful exhaustion (normal return after the final Retry Signal), or a
propagated terminal error. -/
inductive RunResult (ε α : Type) where
  | ok (a : α)
  | exhausted
  | err (e : ε)
deriving DecidableEq

/-- Whether the run ended by throwing (only terminal errors throw). -/
def RunResult.isThrown : RunResult ε α → Bool
  | .err _ => true
  | _ => false

/-- A finished run of the retry runner: its result, the final state threaded
through the attempt function, and the list of attempt numbers invoked. -/
structure RetryRun (σ ε α : Type) where
  result : RunResult ε α
  state : σ
  attempts : List Nat
deriving DecidableEq

/-- Modelled from the spec: the recursion of `retryOnRequest` (src imports it
from a retry module absent from src). `remaining` counts attempts still
allowed after the current one; on a Retry Signal with attempts remaining the
runner re-invokes with an incremented attempt number, on a Retry Signal at the
final allowed attempt it returns normally as `exhausted`, and any other error
propagates immediately. -/
def retryFrom (f : Nat → σ → Outcome ε α × σ) : Nat → Nat → σ → RetryRun σ ε α
  | 0, attempt, s =>
    match f attempt s with
    | (Outcome.ok a, s1) => ⟨RunResult.ok a, s1, [attempt]⟩
    | (Outcome.err e, s1) => ⟨RunResult.err e, s1, [attempt]⟩
    | (Outcome.retrySignal, s1) => ⟨RunResult.exhausted, s1, [attempt]⟩
  | r + 1, attempt, s =>
    match f attempt s with
    | (Outcome.ok a, s1) => ⟨RunResult.ok a, s1, [attempt]⟩
    | (Outcome.err e, s1) => ⟨RunResult.err e, s1, [attempt]⟩
    | (Outcome.retrySignal, s1) =>
      let rest := retryFrom f r (attempt + 1) s1
      ⟨rest.result, rest.state, attempt :: rest.attempts⟩

/-- Modelled from the spec: `run(maxAttempts, baseTimeout, attemptFn)` of the
Retry Runner (§4.1), named `retryOnRequest` as in the source imports. The
backoff duration `baseTimeout` only affects timing, which is not modelled. -/
def retryOnRequest (maxAttempts : Nat) (_baseTimeout : Nat)
    (f : Nat → σ → Outcome ε α × σ) (s : σ) : RetryRun σ ε α :=
  retryFrom f maxAttempts 0 s

/-- Classification of one handler invocation: resolves, throws `RetryError`,
or throws any other error. -/
inductive HRes where
  | ok
  | retrySig
  | err
deriving DecidableEq

/-- Whether the invocation threw the Retry Signal. -/
def HRes.isRetry : HRes → Bool
  | .retrySig => true
  | _ => false

/-- Reading of a handler invocation as an attempt-function outcome. -/
def HRes.toOutcome : HRes → Outcome Unit Unit
  | .ok => Outcome.ok ()
  | .retrySig => Outcome.retrySignal
  | .err => Outcome.err ()

/-- State of one Redis queue: the backing list (`name`), the dead-letter hash
as an insertion-ordered association list from backup key to payload, and the
supply of fresh backup keys (modelling `crypto.randomBytes`). -/
structure QState (T : Type) where
  queue : List T
  deadLetter : List (Nat × T)
  nextKey : Nat
deriving DecidableEq

/-- Observable events of a work loop, in execution order. -/
inductive QEv (T : Type) where
  | popped (t : T)
  | popEmpty
  | recordCreated (k : Nat) (t : T)
  | invoked (t : T) (attempt : Nat)
  | recordDeleted (k : Nat)
deriving DecidableEq

/-- Whether the event is a handler invocation. -/
def QEv.isInvoked : QEv T → Bool
  | .invoked _ _ => true
  | _ => false

/-- Whether the event is a successful pop. -/
def QEv.isPopped : QEv T → Bool
  | .popped _ => true
  | _ => false

/-- Backup keys of the dead-letter records created in a trace. -/
def createdKeys (tr : List (QEv T)) : List Nat :=
  tr.filterMap fun e =>
    match e with
    | QEv.recordCreated k _ => some k
    | _ => none

/-- One iteration of the work loop after a successful `lpop` of `t` with fresh
backup key `k` (provider.ts lines 377-391): `hset` the dead-letter record,
run the handler under `retryOnRequest(retries, timeout, ...)`, and `hdel` the
record when that call returns without throwing; a thrown error is swallowed
(`no-op` catch) leaving the record in place. Returns the new dead-letter hash
and the events of this iteration. -/
def processItem (retries timeout : Nat) (h : T → Nat → HRes) (t : T)
    (dl : List (Nat × T)) (k : Nat) : List (Nat × T) × List (QEv T) :=
  let dl1 := dl ++ [(k, t)]
  let rr := retryOnRequest retries timeout (fun n u => ((h t n).toOutcome, u)) ()
  let evs := QEv.popped t :: QEv.recordCreated k t :: rr.attempts.map (QEv.invoked t)
  if rr.result.isThrown then
    (dl1, evs)
  else
    (dl1.filter fun p => p.1 ≠ k, evs ++ [QEv.recordDeleted k])

/-- The `while (true)` drain loop of one worker (provider.ts lines 376-392):
pop items until `lpop` returns nothing, which throws `RetryError`; each popped
item is processed by `processItem`. A backup key is generated at the top of
every iteration, including the final empty one. Returns the final dead-letter
hash, the key supply, and the trace. -/
def drainGo (retries timeout : Nat) (h : T → Nat → HRes) :
    List T → List (Nat × T) → Nat → List (Nat × T) × Nat × List (QEv T)
  | [], dl, k => (dl, k + 1, [QEv.popEmpty])
  | t :: rest, dl, k =>
    let pr := processItem retries timeout h t dl k
    let d := drainGo retries timeout h rest pr.1 (k + 1)
    (d.1, d.2.1, pr.2 ++ d.2.2)

/-- Fixed poll retry budget for an empty queue (provider.ts line 282). -/
def JOB_POLL_RETRIES : Nat := 1

/-- Empty-queue poll backoff of 3s, in milliseconds (provider.ts line 283). -/
def JOB_POLL_TIMEOUT_MS : Nat := 3000

/-- The public `work` method (provider.ts lines 365-404) for a single worker:
the drain loop runs under an outer `retryOnRequest(JOB_POLL_RETRIES, '3s', ...)`
whose attempt function catches the drain's `RetryError` and, at the final poll
attempt (`attempt >= JOB_POLL_RETRIES`), returns normally instead of
rethrowing. State threads the queue state and the accumulated trace. -/
def work (retries timeout : Nat) (h : T → Nat → HRes) (s : QState T) :
    RetryRun (QState T × List (QEv T)) Unit Unit :=
  retryOnRequest JOB_POLL_RETRIES JOB_POLL_TIMEOUT_MS
    (fun attempt st =>
      let d := drainGo retries timeout h st.1.queue st.1.deadLetter st.1.nextKey
      let s2 : QState T := ⟨[], d.1, d.2.1⟩
      if JOB_POLL_RETRIES ≤ attempt then
        (Outcome.ok (), (s2, st.2 ++ d.2.2))
      else
        (Outcome.retrySignal, (s2, st.2 ++ d.2.2)))
    (s, [])

/-- The `requeue` method (provider.ts lines 343-356): read all dead-letter
values (`hvals`); if none, report false; otherwise atomically delete the hash
and `rpush` every value onto the queue tail. -/
def requeue (s : QState T) : Bool × QState T :=
  let dead := s.deadLetter.map Prod.snd
  if dead.length = 0 then
    (false, s)
  else
    (true, ⟨s.queue ++ dead, [], s.nextKey⟩)

/-- Argument of `fill`: either a finite array of items or a streamed
async-generator source yielding chunks. -/
inductive FillSrc (T : Type) where
  | batch (items : List T)
  | streamed (chunks : List (List T))

/-- The `fill` method (provider.ts lines 311-330): a finite array on a queue
of positive length is not written and reports false; otherwise an array is
appended whole, and a streamed source has every chunk appended regardless of
the current length, reporting true. -/
def fill (s : QState T) : FillSrc T → Bool × QState T
  | FillSrc.batch items =>
    if 0 < s.queue.length then
      (false, s)
    else
      (true, ⟨s.queue ++ items, s.deadLetter, s.nextKey⟩)
  | FillSrc.streamed chunks =>
    (true, ⟨s.queue ++ chunks.flatten, s.deadLetter, s.nextKey⟩)

/-- Observable events of a stream subscription loop. -/
inductive SubEv (M : Type) where
  | invokedMsg (m : M)
  | acked (m : M)
  | doneEv
deriving DecidableEq

/-- Whether the event is an acknowledgment. -/
def SubEv.isAcked : SubEv M → Bool
  | .acked _ => true
  | _ => false

/-- Whether the event is a call of the pull-window `done` callback. -/
def SubEv.isDone : SubEv M → Bool
  | .doneEv => true
  | _ => false

/-- Pull-window state of one subscription: the `count` closure variable of
`pullSmart` and the list of batch sizes pulled so far. -/
structure PullState where
  count : Nat
  pulls : List Nat
deriving DecidableEq

/-- One call of the closure returned by `pullSmart` (part_002 lines 478-487):
increment the counter; when it reaches the batch size, reset it and issue a
new pull of `batch`. -/
def doneStep (batch : Nat) (st : PullState) : PullState :=
  let c := st.count + 1
  if c = batch then ⟨0, st.pulls ++ [batch]⟩ else ⟨c, st.pulls⟩

/-- `doneStep` iterated `n` times. -/
def doneIter (batch : Nat) : Nat → PullState → PullState
  | 0, st => st
  | n + 1, st => doneIter batch n (doneStep batch st)

/-- Pull window right after `Consumers.start` issues the first pull of
`batch` messages (part_002 line 411). -/
def initPull (batch : Nat) : PullState := ⟨0, [batch]⟩

/-- One iteration of `runSub`'s message loop (part_002 lines 453-464): invoke
the handler; on normal return ack and call `done`; on a thrown `RetryError`
do nothing; on any other thrown error ack and call `done`. -/
def runSubStep (batch : Nat) (h : M → HRes) (acc : PullState × List (SubEv M))
    (m : M) : PullState × List (SubEv M) :=
  match h m with
  | HRes.ok => (doneStep batch acc.1, acc.2 ++ [SubEv.invokedMsg m, SubEv.acked m, SubEv.doneEv])
  | HRes.retrySig => (acc.1, acc.2 ++ [SubEv.invokedMsg m])
  | HRes.err => (doneStep batch acc.1, acc.2 ++ [SubEv.invokedMsg m, SubEv.acked m, SubEv.doneEv])

/-- `runSub` over a finite prefix of delivered messages, starting from the
pull window as `Consumers.start` leaves it. -/
def runSub (batch : Nat) (h : M → HRes) (msgs : List M) :
    PullState × List (SubEv M) :=
  msgs.foldl (runSubStep batch h) (initPull batch, [])

/-- Events `runSub` emits for one delivered message, keyed by the handler's
behaviour on it. -/
def subBlock (h : M → HRes) (m : M) : List (SubEv M) :=
  match h m with
  | HRes.ok => [SubEv.invokedMsg m, SubEv.acked m, SubEv.doneEv]
  | HRes.retrySig => [SubEv.invokedMsg m]
  | HRes.err => [SubEv.invokedMsg m, SubEv.acked m, SubEv.doneEv]

/-- The character substitution of `durableName` (part_002 lines 427-431):
reserved NATS subject characters are replaced by fixed tokens, every other
character is kept. -/
def escapeChar (c : Char) : List Char :=
  if c = '.' then ['_']
  else if c = '*' then ['o', 'p', 't', 's']
  else if c = '>' then ['s', 'p', 'r', 'e', 'a', 'd']
  else [c]

/-- The escaped topic: every character of the topic run through the
substitution, as `topic.replace` with a global character class does. -/
def safeTopic (topic : List Char) : List Char :=
  (topic.map escapeChar).flatten

/-- `durableName(stream, namespace, topic)`: the template
stream `_` namespace `_` safeTopic, with only the topic escaped. -/
def durableName (stream ns topic : List Char) : List Char :=
  stream ++ '_' :: ns ++ '_' :: safeTopic topic

/-- Whether a character is one of the reserved NATS subject characters. -/
def isReserved (c : Char) : Bool :=
  c == '.' || c == '*' || c == '>'

/-- A middleware for the embedding: an identifying label and, per message,
whether it invokes `next` to continue the chain. -/
structure Middleware (M : Type) where
  id : Nat
  callsNext : M → Bool

/-- Modelled from the spec: `collapse` (imported by `Consumers` from a
handlers module absent from src) composes a handler with its middleware
chain; middleware run in declared order, each must invoke `next` for the
chain to continue, and omitting `next` short-circuits it. Execution is
recorded as the list of middleware labels run, followed by the handler's own
trace when it is reached. -/
def collapse (handler : M → List Nat) : List (Middleware M) → M → List Nat
  | [], m => handler m
  | mw :: rest, m =>
    mw.id :: (if mw.callsNext m then collapse handler rest m else [])

/-- The subscriber built by `Consumers`'s constructor (part_002 lines
373-377): group middleware concatenated before handler middleware, then
collapsed with the bound handler. -/
def composeSubscriber (groupMw handlerMw : List (Middleware M))
    (handler : M → List Nat) : M → List Nat :=
  collapse handler (groupMw ++ handlerMw)

/-! ### Helper lemmas -/

theorem retryFrom_retry_all (g : Nat → σ → Outcome ε α × σ)
    (hR : ∀ n st, (g n st).1 = Outcome.retrySignal) :
    ∀ (r a : Nat) (s : σ), (retryFrom g r a s).attempts = List.range' a (r + 1) ∧
      (retryFrom g r a s).result = RunResult.exhausted := by
  intro r
  induction r with
  | zero =>
    intro a s
    rcases hg : g a s with ⟨o, s1⟩
    have ho := hR a s
    rw [hg] at ho
    simp only at ho
    subst ho
    simp [retryFrom, hg, List.range'_succ]
  | succ r ih =>
    intro a s
    rcases hg : g a s with ⟨o, s1⟩
    have ho := hR a s
    rw [hg] at ho
    simp only at ho
    subst ho
    simp [retryFrom, hg, List.range'_succ, ih (a + 1) s1]

/-- C5: the Retry Runner on an attempt function that raises the Retry Signal
on every invocation performs exactly `maxAttempts + 1` attempts (numbered
`0..maxAttempts`, so `maxAttempts = 0` is a single attempt) and returns
normally as gracefully exhausted rather than throwing, while an attempt that
fails with a non-Retry-Signal error propagates it immediately after that
single invocation. -/
theorem retryOnRequest_exhaustion_and_terminal (m t : Nat)
    (g : Nat → σ → Outcome ε α × σ) (s : σ) :
    ((∀ n st, (g n st).1 = Outcome.retrySignal) →
      (retryOnRequest m t g s).attempts = List.range (m + 1) ∧
      (retryOnRequest m t g s).result = RunResult.exhausted) ∧
    (∀ e : ε, (g 0 s).1 = Outcome.err e →
      retryOnRequest m t g s = ⟨RunResult.err e, (g 0 s).2, [0]⟩) := by
  constructor
  · intro hR
    have h := retryFrom_retry_all g hR m 0 s
    rw [List.range_eq_range']
    exact ⟨h.1, h.2⟩
  · intro e he
    rcases hg : g 0 s with ⟨o, s1⟩
    rw [hg] at he
    simp only at he
    subst he
    cases m <;> simp [retryOnRequest, retryFrom, hg]

theorem retryOnRequest_exhaustion_witness :
    (retryOnRequest 2 0
      (fun (_ : Nat) (st : Unit) => ((Outcome.retrySignal : Outcome Unit Unit), st))
      ()).attempts = List.range 3 :=
  ((retryOnRequest_exhaustion_and_terminal 2 0 _ ()).1 (fun _ _ => rfl)).1

/-- C9: a work-loop pop on an empty queue raises the Retry Signal, the outer
Retry Runner re-polls under the fixed `JOB_POLL_RETRIES` budget (distinct from
the per-item `retries`), and once that poll budget is exhausted `work` returns
normally — the drain stops without throwing: for every queue state and
handler, the outer runner performs poll attempts `[0, 1]`
(`JOB_POLL_RETRIES + 1` of them), ends in a normal `ok` return, and the trace
records an empty pop. -/
theorem work_poll_budget (retries timeout : Nat) (h : T → Nat → HRes)
    (s : QState T) :
    (work retries timeout h s).result = RunResult.ok () ∧
    (work retries timeout h s).attempts = [0, 1] ∧
    QEv.popEmpty ∈ (work retries timeout h s).state.2 := by
  rcases hd : drainGo retries timeout h s.queue s.deadLetter s.nextKey with ⟨dl2, d2⟩
  rcases d2 with ⟨k2, evs⟩
  simp [work, retryOnRequest, retryFrom, JOB_POLL_RETRIES, JOB_POLL_TIMEOUT_MS, hd, drainGo]

/-- C2: `requeue` on a dead-letter store holding `n` records atomically
empties the store and appends all `n` stored payloads to the queue tail in one
transition, returning true, and the queue length grows by exactly `n`; on an
empty dead-letter store it returns false and leaves the state untouched. -/
theorem requeue_spec (s : QState T) :
    (s.deadLetter = [] → requeue s = (false, s)) ∧
    (s.deadLetter ≠ [] →
      (requeue s).1 = true ∧
      (requeue s).2.deadLetter = [] ∧
      (requeue s).2.queue = s.queue ++ s.deadLetter.map Prod.snd ∧
      (requeue s).2.queue.length = s.queue.length + s.deadLetter.length) := by
  constructor
  · intro hdl
    simp [requeue, hdl]
  · intro hdl
    rcases hq : s.deadLetter with _ | ⟨p, rest⟩
    · exact absurd hq hdl
    · simp [requeue, hq]

theorem requeue_spec_witness :
    (requeue (⟨[1], [(5, 9)], 6⟩ : QState Nat)).1 = true ∧
    (requeue (⟨[1], [(5, 9)], 6⟩ : QState Nat)).2.deadLetter = [] ∧
    (requeue (⟨[1], [(5, 9)], 6⟩ : QState Nat)).2.queue = [1, 9] := by
  have h := (requeue_spec (⟨[1], [(5, 9)], 6⟩ : QState Nat)).2 (by decide)
  exact ⟨h.1, h.2.1, h.2.2.1.trans (by decide)⟩

/-- C3: `fill` with a finite batch on a queue of positive length appends
nothing, leaves the state unchanged and reports false; `fill` with a streamed
source appends every chunk to the queue tail regardless of the current length
and reports true. -/
theorem fill_spec (s : QState T) (items : List T) (chunks : List (List T)) :
    (0 < s.queue.length → fill s (FillSrc.batch items) = (false, s)) ∧
    (fill s (FillSrc.streamed chunks)).1 = true ∧
    (fill s (FillSrc.streamed chunks)).2.queue = s.queue ++ chunks.flatten ∧
    (fill s (FillSrc.streamed chunks)).2.deadLetter = s.deadLetter := by
  refine ⟨fun hlen => ?_, ?_, ?_, ?_⟩ <;> simp [fill, *]

theorem fill_spec_witness :
    fill (⟨[1], [], 0⟩ : QState Nat) (FillSrc.batch [2]) = (false, ⟨[1], [], 0⟩) ∧
    (fill (⟨[1], [], 0⟩ : QState Nat) (FillSrc.streamed [[2], [3]])).2.queue = [1, 2, 3] := by
  have h := fill_spec (⟨[1], [], 0⟩ : QState Nat) [2] [[2], [3]]
  exact ⟨h.1 (by decide), h.2.2.1.trans (by decide)⟩

theorem filter_isPopped_map_invoked (t : T) (l : List Nat) :
    (l.map (QEv.invoked t)).filter QEv.isPopped = [] := by
  induction l with
  | nil => rfl
  | cons a l ih => simp [QEv.isPopped, ih]

theorem processItem_popCount (retries timeout : Nat) (h : T → Nat → HRes)
    (t : T) (dl : List (Nat × T)) (k : Nat) :
    ((processItem retries timeout h t dl k).2.filter QEv.isPopped).length = 1 := by
  by_cases hT :
      (retryOnRequest retries timeout (fun n u => ((h t n).toOutcome, u)) ()).result.isThrown <;>
    simp [processItem, hT, QEv.isPopped, List.filter_append, filter_isPopped_map_invoked]

theorem drainGo_popCount (retries timeout : Nat) (h : T → Nat → HRes) :
    ∀ (queue : List T) (dl : List (Nat × T)) (k : Nat),
      ((drainGo retries timeout h queue dl k).2.2.filter QEv.isPopped).length =
        queue.length := by
  intro queue
  induction queue with
  | nil => intro dl k; simp [drainGo, QEv.isPopped]
  | cons t rest ih =>
    intro dl k
    simp [drainGo, List.filter_append, processItem_popCount, ih, Nat.add_comm]

theorem createdKeys_map_invoked (t : T) (l : List Nat) :
    createdKeys (l.map (QEv.invoked t)) = [] := by
  induction l with
  | nil => rfl
  | cons a l ih => simp [createdKeys]

theorem createdKeys_append (tr tr2 : List (QEv T)) :
    createdKeys (tr ++ tr2) = createdKeys tr ++ createdKeys tr2 := by
  simp [createdKeys]

theorem createdKeys_processItem (retries timeout : Nat) (h : T → Nat → HRes)
    (t : T) (dl : List (Nat × T)) (k : Nat) :
    createdKeys (processItem retries timeout h t dl k).2 = [k] := by
  by_cases hT :
      (retryOnRequest retries timeout (fun n u => ((h t n).toOutcome, u)) ()).result.isThrown <;>
    simp [processItem, hT, createdKeys_append, createdKeys_map_invoked, createdKeys]

theorem drainGo_createdKeys (retries timeout : Nat) (h : T → Nat → HRes) :
    ∀ (queue : List T) (dl : List (Nat × T)) (k : Nat),
      createdKeys (drainGo retries timeout h queue dl k).2.2 =
        List.range' k queue.length := by
  intro queue
  induction queue with
  | nil => intro dl k; simp [drainGo, createdKeys]
  | cons t rest ih =>
    intro dl k
    simp [drainGo, createdKeys_append, createdKeys_processItem, ih, List.range'_succ]

/-- C1 (amended): for every item popped by a work loop, a dead-letter record
keyed by a fresh backup key (keys of one drain are pairwise distinct) is
created in the dead-letter store before the handler is first invoked; the
record is deleted exactly when the retry-wrapped invocation returns without
throwing — on handler success or on graceful retry exhaustion — and remains
in the dead-letter store exactly when the handler threw a non-Retry terminal
error; in every case the loop continues with the next item, processing each
queued item. -/
theorem workLoop_deadLetter_lifecycle (retries timeout : Nat)
    (h : T → Nat → HRes) (t : T) (dl : List (Nat × T)) (k : Nat)
    (queue : List T) :
    QEv.recordCreated k t ∈
      (processItem retries timeout h t dl k).2.takeWhile (fun e => !e.isInvoked) ∧
    ((retryOnRequest retries timeout (fun n u => ((h t n).toOutcome, u)) ()).result.isThrown = false →
      (processItem retries timeout h t dl k).1 = dl.filter fun p => p.1 ≠ k) ∧
    ((retryOnRequest retries timeout (fun n u => ((h t n).toOutcome, u)) ()).result.isThrown = true →
      (processItem retries timeout h t dl k).1 = dl ++ [(k, t)]) ∧
    ((∀ n, h t n = HRes.retrySig) →
      (retryOnRequest retries timeout (fun n u => ((h t n).toOutcome, u)) ()).result =
        RunResult.exhausted ∧
      QEv.recordDeleted k ∈ (processItem retries timeout h t dl k).2) ∧
    ((drainGo retries timeout h queue dl k).2.2.filter QEv.isPopped).length = queue.length ∧
    (createdKeys (drainGo retries timeout h queue dl k).2.2).Nodup := by
  refine ⟨?_, ?_, ?_, ?_, drainGo_popCount retries timeout h queue dl k, ?_⟩
  · by_cases hT :
        (retryOnRequest retries timeout (fun n u => ((h t n).toOutcome, u)) ()).result.isThrown <;>
      simp [processItem, hT, List.takeWhile_cons, QEv.isInvoked]
  · intro hT
    simp [processItem, hT, List.filter_append]
  · intro hT
    simp [processItem, hT]
  · intro hA
    have hR : ∀ (n : Nat) (st : Unit),
        ((fun n (u : Unit) => ((h t n).toOutcome, u)) n st).1 = Outcome.retrySignal := by
      intro n st
      simp [hA n, HRes.toOutcome]
    have hres := (retryFrom_retry_all _ hR retries 0 ()).2
    refine ⟨hres, ?_⟩
    have hT : (retryOnRequest retries timeout
        (fun n u => ((h t n).toOutcome, u)) ()).result.isThrown = false := by
      rw [show (retryOnRequest retries timeout
        (fun n u => ((h t n).toOutcome, u)) ()).result = RunResult.exhausted from hres]
      rfl
    simp [processItem, hT]
  · rw [drainGo_createdKeys]
    exact List.nodup_range' _ _

theorem workLoop_lifecycle_witness :
    (processItem 1 0 (fun (_ : Nat) (_ : Nat) => HRes.retrySig) 5 [] 0).1 =
      ([] : List (Nat × Nat)) ∧
    QEv.recordDeleted 0 ∈ (processItem 1 0 (fun (_ : Nat) (_ : Nat) => HRes.retrySig) 5 [] 0).2 := by
  have hw := workLoop_deadLetter_lifecycle 1 0
    (fun (_ : Nat) (_ : Nat) => HRes.retrySig) 5 [] 0 []
  exact ⟨hw.2.1 (by decide), (hw.2.2.2.1 (fun n => rfl)).2⟩

/-- C1 counterexample: with `retries = 1` and a handler that raises the Retry
Signal on every invocation, working the one-item queue `[7]` exhausts all
`retries + 1 = 2` attempts, yet afterwards the dead-letter store is empty —
the record does not remain on retry exhaustion, because the Retry Runner
returns normally on graceful exhaustion and the `hdel` line then runs. -/
theorem workLoop_exhaustion_cex :
    ((work 1 0 (fun (_ : Nat) (_ : Nat) => HRes.retrySig)
        ⟨[7], [], 0⟩).state.2.filter QEv.isInvoked).length = 2 ∧
    (work 1 0 (fun (_ : Nat) (_ : Nat) => HRes.retrySig)
        ⟨[7], [], 0⟩).state.1.deadLetter = [] := by
  decide

theorem runSub_go (batch : Nat) (h : M → HRes) :
    ∀ (msgs : List M) (p : PullState) (tr : List (SubEv M)),
      (msgs.foldl (runSubStep batch h) (p, tr)).2 = tr ++ msgs.flatMap (subBlock h) ∧
      (msgs.foldl (runSubStep batch h) (p, tr)).1 =
        doneIter batch (msgs.countP fun m => !(h m).isRetry) p := by
  intro msgs
  induction msgs with
  | nil => intro p tr; simp [doneIter]
  | cons m rest ih =>
    intro p tr
    cases hm : h m <;>
      simp [runSubStep, subBlock, hm, HRes.isRetry, List.countP_cons, ih, doneIter]

/-- C4: for every delivered message, `runSub` acknowledges it exactly when the
handler chain did not raise the Retry Signal: on normal completion it is
acknowledged; on the Retry Signal nothing is done (no acknowledgment event,
and the trace holds nothing but the invocation for that message); on any
other error the message is still acknowledged. -/
theorem runSub_ack_policy (batch : Nat) (h : M → HRes) (msgs : List M) :
    (runSub batch h msgs).2 = msgs.flatMap (subBlock h) ∧
    ∀ m : M, m ∈ msgs →
      (SubEv.acked m ∈ (runSub batch h msgs).2 ↔ ¬h m = HRes.retrySig) := by
  have hgo := runSub_go batch h msgs (initPull batch) []
  refine ⟨by simpa using hgo.1, ?_⟩
  intro m hm
  rw [show (runSub batch h msgs).2 = msgs.flatMap (subBlock h) from by simpa using hgo.1]
  constructor
  · intro hmem hretry
    rcases List.mem_flatMap.mp hmem with ⟨a, _, hblock⟩
    cases ha : h a <;> simp [subBlock, ha] at hblock <;> subst hblock
    · rw [ha] at hretry; exact absurd hretry (by simp)
    · rw [ha] at hretry; exact absurd hretry (by simp)
  · intro hne
    refine List.mem_flatMap.mpr ⟨m, hm, ?_⟩
    cases hmres : h m <;> simp [subBlock, hmres]
    exact absurd hmres hne

theorem runSub_ack_witness :
    SubEv.acked 3 ∈ (runSub 2 (fun (_ : Nat) => HRes.ok) [3]).2 :=
  ((runSub_ack_policy 2 (fun (_ : Nat) => HRes.ok) [3]).2 3 (by decide)).mpr (by decide)

theorem countP_done_eq_acked (h : M → HRes) (msgs : List M) :
    (msgs.flatMap (subBlock h)).countP SubEv.isDone =
      (msgs.flatMap (subBlock h)).countP SubEv.isAcked := by
  induction msgs with
  | nil => rfl
  | cons m rest ih =>
    cases hm : h m <;>
      simp [subBlock, hm, List.countP_cons, SubEv.isDone, SubEv.isAcked, ih]

/-- C10: the pull-window counter advances (the `done` callback runs) exactly
when a message is acknowledged: the trace holds as many `done` calls as
acknowledgments, and the final pull window equals the initial one advanced
once per message whose handler did not raise the Retry Signal — acknowledged
terminal-error messages count toward the next batch pull, retried messages
never do. -/
theorem runSub_done_on_ack (batch : Nat) (h : M → HRes) (msgs : List M) :
    (runSub batch h msgs).1 =
      doneIter batch (msgs.countP fun m => !(h m).isRetry) (initPull batch) ∧
    (runSub batch h msgs).2.countP SubEv.isDone =
      (runSub batch h msgs).2.countP SubEv.isAcked := by
  have hgo := runSub_go batch h msgs (initPull batch) []
  refine ⟨by simpa using hgo.2, ?_⟩
  rw [show (runSub batch h msgs).2 = msgs.flatMap (subBlock h) from by simpa using hgo.1]
  exact countP_done_eq_acked h msgs

theorem doneIter_closed (batch : Nat) (hb : 0 < batch) :
    ∀ (n c : Nat) (pulls : List Nat), c < batch →
      doneIter batch n ⟨c, pulls⟩ =
        ⟨(c + n) % batch, pulls ++ List.replicate ((c + n) / batch) batch⟩ := by
  intro n
  induction n with
  | zero =>
    intro c pulls hc
    simp [doneIter, Nat.mod_eq_of_lt hc, Nat.div_eq_of_lt hc]
  | succ n ih =>
    intro c pulls hc
    by_cases hcb : c + 1 = batch
    · have h0 : doneIter batch (n + 1) ⟨c, pulls⟩ =
          doneIter batch n ⟨0, pulls ++ [batch]⟩ := by
        simp [doneIter, doneStep, hcb]
      rw [h0, ih 0 (pulls ++ [batch]) hb]
      have hcn : c + (n + 1) = n + batch := by omega
      rw [hcn]
      simp [Nat.add_mod_right, Nat.add_div_right _ hb, List.replicate_succ,
        List.append_assoc]
    · have hlt : c + 1 < batch := by omega
      have h0 : doneIter batch (n + 1) ⟨c, pulls⟩ =
          doneIter batch n ⟨c + 1, pulls⟩ := by
        simp [doneIter, doneStep, hcb]
      rw [h0, ih (c + 1) pulls hlt]
      have hcn : c + 1 + n = c + (n + 1) := by omega
      rw [hcn]

/-- C6: starting from the initial pull of `batch_size` messages issued by
`start`, the per-subscription counter advances once per completed message and
a refill pull of `batch_size` is issued exactly each time it reaches
`batch_size`, resetting it: after `n` completed messages the subscription has
issued `1 + n / batch_size` pulls of `batch_size` each (initial plus one per
full window) and the counter reads `n % batch_size` — with `batch_size = 2`
and 5 messages, the initial pull of 2 plus two refill pulls of 2. -/
theorem pullWindow_refill (batch n : Nat) (hb : 0 < batch) :
    doneIter batch n (initPull batch) =
      ⟨n % batch, List.replicate (1 + n / batch) batch⟩ := by
  rw [show initPull batch = ⟨0, [batch]⟩ from rfl, doneIter_closed batch hb n 0 [batch] hb]
  simp [List.replicate_succ, Nat.add_comm]

theorem pullWindow_refill_witness :
    doneIter 2 5 (initPull 2) = ⟨1, [2, 2, 2]⟩ := by
  rw [pullWindow_refill 2 5 (by decide)]
  decide

/-- C7 counterexample: `durableName` escapes only the topic, so a reserved
character in the stream argument survives into the returned identity: the
returned name for stream `a.b` contains an unescaped dot. -/
theorem durableName_reserved_cex :
    '.' ∈ durableName ['a', '.', 'b'] ['n'] ['t'] ∧ isReserved '.' = true := by
  decide

theorem safeTopic_not_reserved (t : List Char) :
    ∀ c ∈ safeTopic t, isReserved c = false := by
  intro c hc
  have hex : ∃ c0, c0 ∈ t ∧ c ∈ escapeChar c0 := by simpa [safeTopic] using hc
  rcases hex with ⟨c0, _, hcl⟩
  by_cases h1 : c0 = '.'
  · simp [escapeChar, h1] at hcl
    subst hcl
    rfl
  by_cases h2 : c0 = '*'
  · simp [escapeChar, h1, h2] at hcl
    rcases hcl with rfl | rfl | rfl | rfl <;> rfl
  by_cases h3 : c0 = '>'
  · simp [escapeChar, h1, h2, h3] at hcl
    rcases hcl with rfl | rfl | rfl | rfl | rfl | rfl <;> rfl
  · simp [escapeChar, h1, h2, h3] at hcl
    subst hcl
    simp [isReserved, h1, h2, h3]

/-- C7 (amended): `durableName` is a pure deterministic function — equal
inputs yield the same identity — and the reserved characters never appear in
the escaped-topic portion (each is substituted by its fixed token); the full
returned string is free of reserved characters whenever the stream and
namespace arguments, which the source does not escape, contain none
themselves. -/
theorem durableName_amended (s ns t s2 ns2 t2 : List Char) :
    (s = s2 → ns = ns2 → t = t2 → durableName s ns t = durableName s2 ns2 t2) ∧
    (∀ c ∈ safeTopic t, isReserved c = false) ∧
    ((∀ c ∈ s, isReserved c = false) → (∀ c ∈ ns, isReserved c = false) →
      ∀ c ∈ durableName s ns t, isReserved c = false) := by
  refine ⟨?_, safeTopic_not_reserved t, ?_⟩
  · intro hs hns ht
    rw [hs, hns, ht]
  · intro hsok hnsok c hc
    simp only [durableName] at hc
    rcases List.mem_append.mp hc with h | h
    · rcases List.mem_append.mp h with h | h
      · exact hsok c h
      rcases List.mem_cons.mp h with rfl | h
      · decide
      · exact hnsok c h
    · rcases List.mem_cons.mp h with rfl | h
      · decide
      · exact safeTopic_not_reserved t c h

theorem durableName_amended_witness : isReserved 'x' = false :=
  (durableName_amended ['a'] ['n'] ['x', '.'] ['a'] ['n'] ['x', '.']).2.2
    (by decide) (by decide) 'x' (by decide)

/-- C8: for a handler registered with group middleware `[a, b]` and handler
middleware `[c, d]`, the composed subscriber runs `a`, `b`, `c`, `d`, then
the handler, in that order; and when `b` does not call `next`, neither `c`
nor `d` nor the handler executes for that message. -/
theorem middleware_order (a b c d : Middleware M) (handler : M → List Nat)
    (m : M) :
    (a.callsNext m = true → b.callsNext m = true → c.callsNext m = true →
      d.callsNext m = true →
      composeSubscriber [a, b] [c, d] handler m =
        a.id :: b.id :: c.id :: d.id :: handler m) ∧
    (a.callsNext m = true → b.callsNext m = false →
      composeSubscriber [a, b] [c, d] handler m = [a.id, b.id]) := by
  constructor
  · intro ha hb hc hd
    simp [composeSubscriber, collapse, ha, hb, hc, hd]
  · intro ha hb
    simp [composeSubscriber, collapse, ha, hb]

theorem middleware_order_witness :
    composeSubscriber [⟨1, fun _ => true⟩, ⟨2, fun _ => true⟩]
      [⟨3, fun _ => true⟩, ⟨4, fun _ => true⟩] (fun (_ : Nat) => [9]) 0 =
      [1, 2, 3, 4, 9] :=
  (middleware_order ⟨1, fun _ => true⟩ ⟨2, fun _ => true⟩ ⟨3, fun _ => true⟩
    ⟨4, fun _ => true⟩ (fun _ => [9]) 0).1 rfl rfl rfl rfl
